import Mathlib

/-!
Verification of the `latexrestricted` path-security core
(`src/latexrestricted/_restricted_pathlib.py` and
`src/latexrestricted/__init__.py`).

The embedding models `pathlib.PurePosixPath` values structurally
(absolute flag plus normalized component list), the configuration values
consumed from `latex_config`, the per-variant policy attributes, the
lexical (`StringRestrictedPath`) and resolved (`ResolvedRestrictedPath`)
validators, the decision caches, and the mutating-operation gates
(`open`, `rename`, `replace`).  Filesystem resolution (`Path.resolve`)
is modelled as an explicit function parameter.
-/

namespace LatexRestricted

/-- A pure POSIX path as in `pathlib.PurePosixPath`: an absolute flag and
the normalized list of components (empty and `.` components already
collapsed away, `..` components retained), mirroring the path value type
the restricted classes extend. -/
structure PurePath where
  absolute : Bool
  comps : List String
deriving DecidableEq, Repr

/-- `PurePath.parts`: pathlib includes the root `/` as the first part of an
absolute path. -/
def PurePath.parts (p : PurePath) : List String :=
  if p.absolute then "/" :: p.comps else p.comps

/-- `PurePath.name`: the final component, or `""` when there is none
(pathlib gives `""` for `/` and `.`). -/
def PurePath.name (p : PurePath) : String :=
  p.comps.getLast?.getD ""

/-- `PurePath.parent`: drop the final component; `/` and `.` are their own
parents. -/
def PurePath.parent (p : PurePath) : PurePath :=
  if p.comps.isEmpty then p else { p with comps := p.comps.dropLast }

/-- `PurePath.is_absolute`. -/
def PurePath.is_absolute (p : PurePath) : Bool :=
  p.absolute

/-- `PurePath.is_relative_to other`: pathlib succeeds exactly when the two
anchors agree and `other`'s components are a prefix of `self`'s. -/
def PurePath.is_relative_to (p other : PurePath) : Bool :=
  p.absolute == other.absolute && other.comps.isPrefixOf p.comps

/-- Python `str.startswith`, over the character data (kernel-computable). -/
def strStartsWith (s pre : String) : Bool :=
  pre.data.isPrefixOf s.data

/-- Python `str.endswith`, over the character data (kernel-computable). -/
def strEndsWith (s suf : String) : Bool :=
  suf.data.isSuffixOf s.data

/-- Python `str.lower`, over the character data (ASCII case folding, which
covers the prohibited extensions the code compares). -/
def strToLower (s : String) : String :=
  String.mk (s.data.map Char.toLower)

/-- An access decision as returned by the four predicates:
`(is_accessible, reason_not_accessible)`. -/
abbrev Decision := Bool × Option String

/-- The allowing decision `(True, None)`. -/
def allowDec : Decision := (true, none)

/-- A denying decision `(False, reason)`. -/
def denyDec (r : String) : Decision := (false, some r)

/-- Reason template for paths containing a parent reference, exactly as the
code writes it (the `..` is surrounded by double-quote characters). -/
def reasonDotdot : String :=
  "security settings do not permit paths containing \"..\""

/-- Reason template for a location outside the permitted roots. -/
def reasonLocation : String :=
  "security settings do not permit access to this location"

/-- Reason template for dotfile access. -/
def reasonDotfiles : String :=
  "security settings do not permit access to dotfiles"

/-- Reason template for a prohibited write extension, parameterized by the
extension. -/
def reasonExtension (ext : String) : String :=
  "security settings prevent writing files with extension \"" ++ ext ++ "\""

/-- The configuration values the module reads from `latex_config`:
the TeX working directory, the two optional output directories, the four
policy booleans and the prohibited write extensions. -/
structure LatexConfig where
  tex_cwd : PurePath
  TEXMF_OUTPUT_DIRECTORY : Option PurePath
  TEXMFOUTPUT : Option PurePath
  can_read_anywhere : Bool
  can_read_dotfiles : Bool
  can_write_anywhere : Bool
  can_write_dotfiles : Bool
  prohibited_write_file_extensions : List String
deriving DecidableEq, Repr

/-- The per-variant policy attributes `_tex_can_*` and
`_tex_prohibited_write_file_extensions` of a `BaseRestrictedPath`
subclass. -/
structure Policy where
  can_read_anywhere : Bool
  can_read_dotfiles : Bool
  can_write_anywhere : Bool
  can_write_dotfiles : Bool
  prohibited_write_file_extensions : List String
deriving DecidableEq, Repr

/-- The policy of `StringRestrictedPath` and `ResolvedRestrictedPath`:
all attributes taken from the ambient configuration. -/
def defaultPolicy (cfg : LatexConfig) : Policy :=
  { can_read_anywhere := cfg.can_read_anywhere
    can_read_dotfiles := cfg.can_read_dotfiles
    can_write_anywhere := cfg.can_write_anywhere
    can_write_dotfiles := cfg.can_write_dotfiles
    prohibited_write_file_extensions := cfg.prohibited_write_file_extensions }

/-- The policy of `SafeStringRestrictedPath` / `SafeResolvedRestrictedPath`:
the four booleans are overridden to `False`. -/
def safePolicy (cfg : LatexConfig) : Policy :=
  { defaultPolicy cfg with
    can_read_anywhere := false
    can_read_dotfiles := false
    can_write_anywhere := false
    can_write_dotfiles := false }

/-- The policy of `SafeWriteStringRestrictedPath` /
`SafeWriteResolvedRestrictedPath`: the two write booleans are overridden
to `False`. -/
def safeWritePolicy (cfg : LatexConfig) : Policy :=
  { defaultPolicy cfg with
    can_write_anywhere := false
    can_write_dotfiles := false }

/-- `BaseRestrictedPath.tex_texmfoutput_roots`: the set built from
`TEXMF_OUTPUT_DIRECTORY` and `TEXMFOUTPUT` when configured; the working
directory is never added. -/
def texTexmfoutputRoots (cfg : LatexConfig) : List PurePath :=
  cfg.TEXMF_OUTPUT_DIRECTORY.toList ++ cfg.TEXMFOUTPUT.toList

/-- `BaseRestrictedPath.tex_openout_roots`: start with
`TEXMF_OUTPUT_DIRECTORY` if configured, else the working directory; then
append `TEXMFOUTPUT` when configured and not already present. -/
def texOpenoutRoots (cfg : LatexConfig) : List PurePath :=
  let roots : List PurePath :=
    match cfg.TEXMF_OUTPUT_DIRECTORY with
    | some d => [] ++ [d]
    | none => [] ++ [cfg.tex_cwd]
  match cfg.TEXMFOUTPUT with
  | some f => if roots.contains f then roots else roots ++ [f]
  | none => roots

/-- `BaseRestrictedPath.tex_paranoid_roots`: the working directory plus
whichever output directories are configured. -/
def texParanoidRoots (cfg : LatexConfig) : List PurePath :=
  [cfg.tex_cwd] ++ cfg.TEXMF_OUTPUT_DIRECTORY.toList ++ cfg.TEXMFOUTPUT.toList

/-- `BaseRestrictedPath.tex_paranoid_roots_resolved`: every paranoid root
resolved through the filesystem. -/
def texParanoidRootsResolved (cfg : LatexConfig)
    (resolve : PurePath → PurePath) : List PurePath :=
  (texParanoidRoots cfg).map resolve

/-- `StringRestrictedPath.tex_readable_dir` (uncached decision logic). -/
def stringTexReadableDir (cfg : LatexConfig) (pol : Policy)
    (p : PurePath) : Decision :=
  if pol.can_read_anywhere then allowDec
  else if p.parts.contains ".." then denyDec reasonDotdot
  else if p.is_absolute
      && !((texTexmfoutputRoots cfg).any fun r => p.is_relative_to r) then
    denyDec reasonLocation
  else allowDec

/-- `StringRestrictedPath.tex_readable_file` (uncached decision logic). -/
def stringTexReadableFile (cfg : LatexConfig) (pol : Policy)
    (p : PurePath) : Decision :=
  if pol.can_read_dotfiles || !(strStartsWith p.name ".") then
    stringTexReadableDir cfg pol p.parent
  else denyDec reasonDotfiles

/-- `StringRestrictedPath.tex_writable_dir` (uncached decision logic). -/
def stringTexWritableDir (cfg : LatexConfig) (pol : Policy)
    (p : PurePath) : Decision :=
  if pol.can_write_anywhere then allowDec
  else if p.parts.contains ".." then denyDec reasonDotdot
  else if p.is_absolute
      && !((texTexmfoutputRoots cfg).any fun r => p.is_relative_to r) then
    denyDec reasonLocation
  else allowDec

/-- The first prohibited extension a lower-cased file name ends with, as
found by the `for ... break / else` loop. -/
def firstMatchingExt (exts : List String) (nameLower : String) :
    Option String :=
  exts.find? fun ext => strEndsWith nameLower ext

/-- `StringRestrictedPath.tex_writable_file` (uncached decision logic). -/
def stringTexWritableFile (cfg : LatexConfig) (pol : Policy)
    (p : PurePath) : Decision :=
  match firstMatchingExt pol.prohibited_write_file_extensions
      (strToLower p.name) with
  | some ext => denyDec (reasonExtension ext)
  | none =>
    if pol.can_write_dotfiles || !(strStartsWith p.name ".") then
      stringTexWritableDir cfg pol p.parent
    else denyDec reasonDotfiles

/-- `ResolvedRestrictedPath.tex_readable_dir` (uncached decision logic);
`resolve` models `Path.resolve` against the current filesystem. -/
def resolvedTexReadableDir (cfg : LatexConfig) (pol : Policy)
    (resolve : PurePath → PurePath) (p : PurePath) : Decision :=
  if pol.can_read_anywhere then allowDec
  else if (texParanoidRootsResolved cfg resolve).any
      (fun r => (resolve p).is_relative_to r) then allowDec
  else denyDec reasonLocation

/-- `ResolvedRestrictedPath.tex_readable_file` (uncached decision logic):
the dotfile check looks at both the original and the resolved name, and
the directory check is delegated on the resolved parent. -/
def resolvedTexReadableFile (cfg : LatexConfig) (pol : Policy)
    (resolve : PurePath → PurePath) (p : PurePath) : Decision :=
  let resolved := resolve p
  if pol.can_read_dotfiles
      || !(strStartsWith p.name "." || strStartsWith resolved.name ".") then
    resolvedTexReadableDir cfg pol resolve resolved.parent
  else denyDec reasonDotfiles

/-- `ResolvedRestrictedPath.tex_writable_dir` (uncached decision logic). -/
def resolvedTexWritableDir (cfg : LatexConfig) (pol : Policy)
    (resolve : PurePath → PurePath) (p : PurePath) : Decision :=
  if pol.can_write_anywhere then allowDec
  else if (texParanoidRootsResolved cfg resolve).any
      (fun r => (resolve p).is_relative_to r) then allowDec
  else denyDec reasonLocation

/-- The first prohibited extension matched by either the original or the
resolved lower-cased file name, as found by the `for ... break / else`
loop of `ResolvedRestrictedPath.tex_writable_file`. -/
def firstMatchingExtDual (exts : List String)
    (nameLower resolvedNameLower : String) : Option String :=
  exts.find? fun ext =>
    strEndsWith nameLower ext || strEndsWith resolvedNameLower ext

/-- `ResolvedRestrictedPath.tex_writable_file` (uncached decision logic). -/
def resolvedTexWritableFile (cfg : LatexConfig) (pol : Policy)
    (resolve : PurePath → PurePath) (p : PurePath) : Decision :=
  let resolved := resolve p
  match firstMatchingExtDual pol.prohibited_write_file_extensions
      (strToLower p.name) (strToLower resolved.name) with
  | some ext => denyDec (reasonExtension ext)
  | none =>
    if pol.can_write_dotfiles
        || !(strStartsWith p.name "." || strStartsWith resolved.name ".") then
      resolvedTexWritableDir cfg pol resolve resolved.parent
    else denyDec reasonDotfiles

/-- The security violation raised by the mutating-operation gates:
`PathSecurityError` with the offending path and the decision reason. -/
structure PathSecurityError where
  path : PurePath
  reason : Option String
deriving DecidableEq, Repr

/-- `BaseRestrictedPath.rename`: check the writable-file predicate of the
source, then of the target, raising before the underlying filesystem
rename; the `ok` value is the `(source, target)` pair handed to the
underlying `rename` call, so an `error` result means no filesystem call
was issued.  `wf` is the dynamically dispatched `tex_writable_file`. -/
def rename (wf : PurePath → Decision) (p target : PurePath) :
    Except PathSecurityError (PurePath × PurePath) :=
  match wf p with
  | (false, r) => .error ⟨p, r⟩
  | (true, _) =>
    match wf target with
    | (false, r) => .error ⟨target, r⟩
    | (true, _) => .ok (p, target)

/-- `BaseRestrictedPath.replace`: same gate as `rename` with the
replacement messages. -/
def replace (wf : PurePath → Decision) (p target : PurePath) :
    Except PathSecurityError (PurePath × PurePath) :=
  match wf p with
  | (false, r) => .error ⟨p, r⟩
  | (true, _) =>
    match wf target with
    | (false, r) => .error ⟨target, r⟩
    | (true, _) => .ok (p, target)

/-- Outcome of `BaseRestrictedPath.open`: the file is opened, a
`PathSecurityError` is raised, or `NotImplementedError` is raised for an
unrecognized mode. -/
inductive OpenOutcome where
  | opened
  | securityError (e : PathSecurityError)
  | notImplementedError
deriving DecidableEq, Repr

/-- `BaseRestrictedPath.open`: a mode containing `r` runs only the
readable-file predicate `rf`; otherwise a mode containing one of `w`,
`x`, `a` runs the writable-file predicate `wf`; any other mode raises
`NotImplementedError`.  The mode string is modelled as its character
list, so `'r' in mode` is list membership. -/
def openGate (rf wf : PurePath → Decision) (mode : List Char)
    (p : PurePath) : OpenOutcome :=
  if mode.contains 'r' then
    match rf p with
    | (true, _) => .opened
    | (false, r) => .securityError ⟨p, r⟩
  else if mode.contains 'w' || mode.contains 'x'
      || mode.contains 'a' then
    match wf p with
    | (true, _) => .opened
    | (false, r) => .securityError ⟨p, r⟩
  else .notImplementedError

/-- A concrete validator variant: which strategy its class uses
(`_access_file_system_with_resolved_paths`) together with its effective
policy attributes.  `cache_key` includes the class, modelled here as the
variant itself. -/
structure Variant where
  usesResolvedPaths : Bool
  policy : Policy
deriving DecidableEq, Repr

/-- A cache key `(type(self), self)` as used by `self.cache_key`. -/
abbrev CacheKey := Variant × PurePath

/-- One of the four class-level decision caches, a `dict` keyed by
`cache_key`; modelled as an association list where the most recent
insertion is found first. -/
abbrev DecisionCache := List (CacheKey × Decision)

/-- Dictionary lookup in a decision cache. -/
def cacheLookup (c : DecisionCache) (k : CacheKey) : Option Decision :=
  (c.find? fun e => e.1 == k).map (·.2)

/-- The mutable class-level state: the four decision caches plus an
instrumentation counter for calls to the filesystem resolution step. -/
structure CacheState where
  readableDirCache : DecisionCache
  readableFileCache : DecisionCache
  writableDirCache : DecisionCache
  writableFileCache : DecisionCache
  resolveCount : Nat
deriving DecidableEq, Repr

/-- The uncached directory-read decision of a variant, dispatching on its
strategy. -/
def computeReadableDir (cfg : LatexConfig)
    (resolve : PurePath → PurePath) (V : Variant) (p : PurePath) :
    Decision :=
  if V.usesResolvedPaths then resolvedTexReadableDir cfg V.policy resolve p
  else stringTexReadableDir cfg V.policy p

/-- The uncached file-read decision of a variant. -/
def computeReadableFile (cfg : LatexConfig)
    (resolve : PurePath → PurePath) (V : Variant) (p : PurePath) :
    Decision :=
  if V.usesResolvedPaths then resolvedTexReadableFile cfg V.policy resolve p
  else stringTexReadableFile cfg V.policy p

/-- The uncached directory-write decision of a variant. -/
def computeWritableDir (cfg : LatexConfig)
    (resolve : PurePath → PurePath) (V : Variant) (p : PurePath) :
    Decision :=
  if V.usesResolvedPaths then resolvedTexWritableDir cfg V.policy resolve p
  else stringTexWritableDir cfg V.policy p

/-- The uncached file-write decision of a variant. -/
def computeWritableFile (cfg : LatexConfig)
    (resolve : PurePath → PurePath) (V : Variant) (p : PurePath) :
    Decision :=
  if V.usesResolvedPaths then resolvedTexWritableFile cfg V.policy resolve p
  else stringTexWritableFile cfg V.policy p

/-- How many `self.resolve()` calls the cache-miss branch of the given
directory predicate performs: lexical variants never resolve; resolved
variants resolve once unless the anywhere shortcut fires. -/
def readableDirResolveCalls (V : Variant) : Nat :=
  if V.usesResolvedPaths && !V.policy.can_read_anywhere then 1 else 0

/-- Resolution calls of the file-read miss branch
(`ResolvedRestrictedPath.tex_readable_file` always resolves first). -/
def readableFileResolveCalls (V : Variant) : Nat :=
  if V.usesResolvedPaths then 1 else 0

/-- Resolution calls of the directory-write miss branch. -/
def writableDirResolveCalls (V : Variant) : Nat :=
  if V.usesResolvedPaths && !V.policy.can_write_anywhere then 1 else 0

/-- Resolution calls of the file-write miss branch. -/
def writableFileResolveCalls (V : Variant) : Nat :=
  if V.usesResolvedPaths then 1 else 0

/-- `tex_readable_dir` with its `try ... except KeyError` cache protocol:
return the cached decision if present, else compute it, record the
resolution work, and store the decision under `cache_key`. -/
def texReadableDirCached (cfg : LatexConfig)
    (resolve : PurePath → PurePath) (V : Variant) (p : PurePath)
    (st : CacheState) : Decision × CacheState :=
  match cacheLookup st.readableDirCache (V, p) with
  | some d => (d, st)
  | none =>
    let d := computeReadableDir cfg resolve V p
    (d, { st with
          readableDirCache := ((V, p), d) :: st.readableDirCache
          resolveCount := st.resolveCount + readableDirResolveCalls V })

/-- `tex_readable_file` with its cache protocol. -/
def texReadableFileCached (cfg : LatexConfig)
    (resolve : PurePath → PurePath) (V : Variant) (p : PurePath)
    (st : CacheState) : Decision × CacheState :=
  match cacheLookup st.readableFileCache (V, p) with
  | some d => (d, st)
  | none =>
    let d := computeReadableFile cfg resolve V p
    (d, { st with
          readableFileCache := ((V, p), d) :: st.readableFileCache
          resolveCount := st.resolveCount + readableFileResolveCalls V })

/-- `tex_writable_dir` with its cache protocol. -/
def texWritableDirCached (cfg : LatexConfig)
    (resolve : PurePath → PurePath) (V : Variant) (p : PurePath)
    (st : CacheState) : Decision × CacheState :=
  match cacheLookup st.writableDirCache (V, p) with
  | some d => (d, st)
  | none =>
    let d := computeWritableDir cfg resolve V p
    (d, { st with
          writableDirCache := ((V, p), d) :: st.writableDirCache
          resolveCount := st.resolveCount + writableDirResolveCalls V })

/-- `tex_writable_file` with its cache protocol. -/
def texWritableFileCached (cfg : LatexConfig)
    (resolve : PurePath → PurePath) (V : Variant) (p : PurePath)
    (st : CacheState) : Decision × CacheState :=
  match cacheLookup st.writableFileCache (V, p) with
  | some d => (d, st)
  | none =>
    let d := computeWritableFile cfg resolve V p
    (d, { st with
          writableFileCache := ((V, p), d) :: st.writableFileCache
          resolveCount := st.resolveCount + writableFileResolveCalls V })

/-- The class names defined at module level in
`_restricted_pathlib.py`. -/
def restrictedPathlibClassNames : List String :=
  ["BaseRestrictedPath",
   "StringRestrictedPath",
   "SafeStringRestrictedPath",
   "SafeWriteStringRestrictedPath",
   "ResolvedRestrictedPath",
   "SafeResolvedRestrictedPath",
   "SafeWriteResolvedRestrictedPath"]

/-- The names `__init__.py` imports `from ._restricted_pathlib`. -/
def initImportedPathClassNames : List String :=
  ["BaseRestrictedPath",
   "StringRestrictedPath",
   "SafeStringRestrictedPath",
   "SafeOutputStringRestrictedPath",
   "ResolvedRestrictedPath",
   "SafeResolvedRestrictedPath",
   "SafeOutputResolvedRestrictedPath"]

/-- Python exceptions relevant to the lazy-initialization guards. -/
inductive PyError where
  | attributeError
  | keyError
deriving DecidableEq, Repr

/-- Reading a lazily-initialized class attribute: raises
`AttributeError` when the attribute has not been set. -/
def getClassAttr {α : Type} (slot : Option α) : Except PyError α :=
  match slot with
  | some v => .ok v
  | none => .error .attributeError

/-- One call of `BaseRestrictedPath.tex_paranoid_roots_with_resolved`:
`try` to read `cls._tex_paranoid_roots_with_resolved`, and handle only
`KeyError` by computing the union and storing it; any other exception
(in particular the `AttributeError` the attribute access actually
raises) propagates with the attribute left unset.  Returns the call
result together with the attribute slot afterwards. -/
def texParanoidRootsWithResolved (union : List PurePath)
    (slot : Option (List PurePath)) :
    Except PyError (List PurePath) × Option (List PurePath) :=
  match getClassAttr slot with
  | .ok v => (.ok v, slot)
  | .error e =>
    match e with
    | .keyError => (.ok union, some union)
    | .attributeError => (.error e, slot)

/-- The attribute slot after the `n`-th consecutive call of
`tex_paranoid_roots_with_resolved`, starting from the unset slot a fresh
class has, together with that call's result. -/
def texParanoidRootsWithResolvedCalls (union : List PurePath) :
    Nat → Except PyError (List PurePath) × Option (List PurePath)
  | 0 => texParanoidRootsWithResolved union none
  | n + 1 =>
    texParanoidRootsWithResolved union
      (texParanoidRootsWithResolvedCalls union n).2

/-! Theorems. -/

/-- C10: every call of `tex_paranoid_roots_with_resolved` raises an
uncaught `AttributeError`: the guard catches `KeyError` while the missing
class-attribute access raises `AttributeError`, so the union is never
computed or cached, and the attribute slot stays unset for every
subsequent call. -/
theorem tex_paranoid_roots_with_resolved_always_raises
    (union : List PurePath) (n : Nat) :
    texParanoidRootsWithResolvedCalls union n =
      (Except.error PyError.attributeError, none) := by
  induction n with
  | zero => rfl
  | succ n ih =>
    simp only [texParanoidRootsWithResolvedCalls, ih]
    rfl

/-- C9: the package `__init__` imports the names
`SafeOutputStringRestrictedPath` and `SafeOutputResolvedRestrictedPath`
from `_restricted_pathlib`, but that module defines no classes of those
names (it defines the `SafeWrite*` variants instead), so importing the
package fails and not every strategy/strictness combination is
constructible from it. -/
theorem init_import_name_mismatch :
    "SafeOutputStringRestrictedPath" ∈ initImportedPathClassNames
    ∧ "SafeOutputStringRestrictedPath" ∉ restrictedPathlibClassNames
    ∧ "SafeOutputResolvedRestrictedPath" ∈ initImportedPathClassNames
    ∧ "SafeOutputResolvedRestrictedPath" ∉ restrictedPathlibClassNames
    ∧ "SafeWriteStringRestrictedPath" ∈ restrictedPathlibClassNames
    ∧ "SafeWriteResolvedRestrictedPath" ∈ restrictedPathlibClassNames := by
  decide

/-- C8: `tex_openout_roots` starts with `TEXMF_OUTPUT_DIRECTORY` when
configured and the working directory otherwise, and `TEXMFOUTPUT` is
appended as the (only) second element exactly when it is configured and
distinct from the first element. -/
theorem tex_openout_roots_order (cfg : LatexConfig) :
    (texOpenoutRoots cfg).head? =
      some (cfg.TEXMF_OUTPUT_DIRECTORY.getD cfg.tex_cwd)
    ∧ (texOpenoutRoots cfg).drop 1 =
      (match cfg.TEXMFOUTPUT with
       | some f =>
         if f = cfg.TEXMF_OUTPUT_DIRECTORY.getD cfg.tex_cwd then [] else [f]
       | none => []) := by
  cases h1 : cfg.TEXMF_OUTPUT_DIRECTORY with
  | none =>
    cases h2 : cfg.TEXMFOUTPUT with
    | none => simp [texOpenoutRoots, h1, h2]
    | some f =>
      simp only [texOpenoutRoots, h1, h2, Option.getD_none]
      by_cases hf : f = cfg.tex_cwd <;>
        simp [List.contains, hf, beq_iff_eq, eq_comm]
  | some d =>
    cases h2 : cfg.TEXMFOUTPUT with
    | none => simp [texOpenoutRoots, h1, h2]
    | some f =>
      simp only [texOpenoutRoots, h1, h2, Option.getD_some]
      by_cases hf : f = d <;>
        simp [List.contains, hf, beq_iff_eq, eq_comm]

/-- C3: `rename` and `replace` gate on the writable-file predicate of both
the source and the target; any denial raises a `PathSecurityError`
carrying the offending path and the decision reason before the
underlying filesystem call (so no mutation happens), with the target
check able to block the operation even when the source check passes;
only when both checks pass is the underlying call issued. -/
theorem rename_replace_check_both_paths (wf : PurePath → Decision)
    (s t : PurePath) :
    (∀ r, wf s = (false, r) →
      rename wf s t = Except.error ⟨s, r⟩
      ∧ replace wf s t = Except.error ⟨s, r⟩)
    ∧ (∀ r, (wf s).1 = true → wf t = (false, r) →
      rename wf s t = Except.error ⟨t, r⟩
      ∧ replace wf s t = Except.error ⟨t, r⟩)
    ∧ ((wf s).1 = true → (wf t).1 = true →
      rename wf s t = Except.ok (s, t)
      ∧ replace wf s t = Except.ok (s, t))
    ∧ (¬((wf s).1 = true ∧ (wf t).1 = true) → ∀ q,
      rename wf s t ≠ Except.ok q ∧ replace wf s t ≠ Except.ok q) := by
  cases hws : wf s with
  | mk b1 o1 =>
    cases hwt : wf t with
    | mk b2 o2 =>
      cases b1 <;> cases b2 <;>
        simp_all [rename, replace, hws, hwt]

/-- C4: `open` with a mode containing `r` (including read-write modes such
as `r+`) consults only the readable-file predicate — the outcome is
independent of the writable-file predicate, so write-extension and
write-dotfile restrictions do not apply — and a mode containing none of
`r`, `w`, `x`, `a` raises `NotImplementedError`. -/
theorem open_read_mode_checks_only_readable
    (rf wf wf2 : PurePath → Decision) (mode : List Char) (p : PurePath) :
    ('r' ∈ mode →
      openGate rf wf mode p = openGate rf wf2 mode p
      ∧ openGate rf wf mode p =
        (match rf p with
         | (true, _) => OpenOutcome.opened
         | (false, r) => OpenOutcome.securityError ⟨p, r⟩))
    ∧ ('r' ∉ mode → 'w' ∉ mode → 'x' ∉ mode → 'a' ∉ mode →
      openGate rf wf mode p = OpenOutcome.notImplementedError) := by
  constructor
  · intro hr
    simp [openGate, hr]
  · intro hr hw hx ha
    simp [openGate, hr, hw, hx, ha]

/-- A relative sample path `a.tex`. -/
def pathRelA : PurePath := ⟨false, ["a.tex"]⟩

/-- An absolute sample path `/out/x.tex`. -/
def pathAbsOut : PurePath := ⟨true, ["out", "x.tex"]⟩

/-- A sample writable-file predicate denying exactly absolute paths. -/
def wfDenyAbs : PurePath → Decision := fun p =>
  if p.absolute then denyDec reasonLocation else allowDec

/-- A sample readable-file predicate allowing everything. -/
def rfAllowAll : PurePath → Decision := fun _ => allowDec

/-- A sample writable-file predicate denying everything with the `.bat`
extension reason. -/
def wfDenyAll : PurePath → Decision := fun _ =>
  denyDec (reasonExtension ".bat")

/-- Witness for C3: renaming the relative `a.tex` to the absolute
`/out/x.tex` fails on the target check with the target path and reason,
and never reaches the underlying rename, although the source passes. -/
theorem rename_replace_check_both_paths_witness :
    rename wfDenyAbs pathRelA pathAbsOut =
      Except.error ⟨pathAbsOut, some reasonLocation⟩
    ∧ replace wfDenyAbs pathRelA pathAbsOut =
      Except.error ⟨pathAbsOut, some reasonLocation⟩ :=
  (rename_replace_check_both_paths wfDenyAbs pathRelA pathAbsOut).2.1
    (some reasonLocation) (by decide) (by decide)

/-- Witness for C4: opening `a.tex` with mode `r+` succeeds against a
writable-file predicate that denies everything, the outcome being
independent of that predicate, and mode `b` raises
`NotImplementedError`. -/
theorem open_read_mode_checks_only_readable_witness :
    openGate rfAllowAll wfDenyAll [ 'r', '+'] pathRelA =
      openGate rfAllowAll rfAllowAll [ 'r', '+'] pathRelA
    ∧ openGate rfAllowAll wfDenyAll [ 'r', '+'] pathRelA =
      OpenOutcome.opened
    ∧ openGate rfAllowAll wfDenyAll [ 'b'] pathRelA =
      OpenOutcome.notImplementedError :=
  ⟨((open_read_mode_checks_only_readable rfAllowAll wfDenyAll rfAllowAll
      [ 'r', '+'] pathRelA).1 (by decide)).1,
   (((open_read_mode_checks_only_readable rfAllowAll wfDenyAll rfAllowAll
      [ 'r', '+'] pathRelA).1 (by decide)).2).trans (by decide),
   (open_read_mode_checks_only_readable rfAllowAll wfDenyAll rfAllowAll
      [ 'b'] pathRelA).2 (by decide) (by decide) (by decide) (by decide)⟩

/-- C1: the lexical directory predicates follow the documented decision
sequence: anywhere allows; otherwise a `..` component denies with the
`..` reason; otherwise an absolute path is allowed exactly when it lies
under the output directory or the output-fallback directory (the working
directory never participates, witnessed by invariance under changing
it) and denied with the location reason otherwise; otherwise a relative
path is allowed. -/
theorem lexical_dir_decision_sequence (cfg : LatexConfig) (pol : Policy)
    (p : PurePath) :
    (pol.can_read_anywhere = true →
      stringTexReadableDir cfg pol p = allowDec)
    ∧ (pol.can_read_anywhere = false → ".." ∈ p.parts →
      stringTexReadableDir cfg pol p = denyDec reasonDotdot)
    ∧ (pol.can_read_anywhere = false → ".." ∉ p.parts →
       p.is_absolute = true →
      ((∃ r ∈ cfg.TEXMF_OUTPUT_DIRECTORY.toList ++ cfg.TEXMFOUTPUT.toList,
          p.is_relative_to r = true) →
        stringTexReadableDir cfg pol p = allowDec)
      ∧ (¬(∃ r ∈ cfg.TEXMF_OUTPUT_DIRECTORY.toList ++ cfg.TEXMFOUTPUT.toList,
          p.is_relative_to r = true) →
        stringTexReadableDir cfg pol p = denyDec reasonLocation))
    ∧ (pol.can_read_anywhere = false → ".." ∉ p.parts →
       p.is_absolute = false →
      stringTexReadableDir cfg pol p = allowDec)
    ∧ (∀ c, stringTexReadableDir { cfg with tex_cwd := c } pol p =
      stringTexReadableDir cfg pol p)
    ∧ (pol.can_write_anywhere = true →
      stringTexWritableDir cfg pol p = allowDec)
    ∧ (pol.can_write_anywhere = false → ".." ∈ p.parts →
      stringTexWritableDir cfg pol p = denyDec reasonDotdot)
    ∧ (pol.can_write_anywhere = false → ".." ∉ p.parts →
       p.is_absolute = true →
      ((∃ r ∈ cfg.TEXMF_OUTPUT_DIRECTORY.toList ++ cfg.TEXMFOUTPUT.toList,
          p.is_relative_to r = true) →
        stringTexWritableDir cfg pol p = allowDec)
      ∧ (¬(∃ r ∈ cfg.TEXMF_OUTPUT_DIRECTORY.toList ++ cfg.TEXMFOUTPUT.toList,
          p.is_relative_to r = true) →
        stringTexWritableDir cfg pol p = denyDec reasonLocation))
    ∧ (pol.can_write_anywhere = false → ".." ∉ p.parts →
       p.is_absolute = false →
      stringTexWritableDir cfg pol p = allowDec)
    ∧ (∀ c, stringTexWritableDir { cfg with tex_cwd := c } pol p =
      stringTexWritableDir cfg pol p) := by
  have hroots : ∀ c, texTexmfoutputRoots { cfg with tex_cwd := c } =
      texTexmfoutputRoots cfg := by
    intro c
    simp [texTexmfoutputRoots]
  have hany : ((texTexmfoutputRoots cfg).any fun r => p.is_relative_to r)
      = true ↔
      ∃ r ∈ cfg.TEXMF_OUTPUT_DIRECTORY.toList ++ cfg.TEXMFOUTPUT.toList,
        p.is_relative_to r = true := by
    rw [List.any_eq_true]
    simp [texTexmfoutputRoots]
  refine ⟨?_, ?_, ?_, ?_, ?_, ?_, ?_, ?_, ?_, ?_⟩
  · intro h
    simp [stringTexReadableDir, h]
  · intro h1 h2
    simp [stringTexReadableDir, h1, h2]
  · intro h1 h2 h3
    constructor
    · intro hex
      have h4 := hany.mpr hex
      simp [stringTexReadableDir, h1, h2, h3, h4]
    · intro hnex
      have h4 : ((texTexmfoutputRoots cfg).any fun r => p.is_relative_to r)
          = false := by
        cases hb : (texTexmfoutputRoots cfg).any fun r => p.is_relative_to r
        · rfl
        · exact absurd (hany.mp hb) hnex
      simp [stringTexReadableDir, h1, h2, h3, h4]
  · intro h1 h2 h3
    simp [stringTexReadableDir, h1, h2, h3]
  · intro c
    simp [stringTexReadableDir, hroots]
  · intro h
    simp [stringTexWritableDir, h]
  · intro h1 h2
    simp [stringTexWritableDir, h1, h2]
  · intro h1 h2 h3
    constructor
    · intro hex
      have h4 := hany.mpr hex
      simp [stringTexWritableDir, h1, h2, h3, h4]
    · intro hnex
      have h4 : ((texTexmfoutputRoots cfg).any fun r => p.is_relative_to r)
          = false := by
        cases hb : (texTexmfoutputRoots cfg).any fun r => p.is_relative_to r
        · rfl
        · exact absurd (hany.mp hb) hnex
      simp [stringTexWritableDir, h1, h2, h3, h4]
  · intro h1 h2 h3
    simp [stringTexWritableDir, h1, h2, h3]
  · intro c
    simp [stringTexWritableDir, hroots]
/-- A sample configuration: cwd `/tex`, output directory `/out`, fallback
`/fallback`, everything restricted, `.bat` writing prohibited. -/
def cfgSample : LatexConfig :=
  { tex_cwd := ⟨true, ["tex"]⟩
    TEXMF_OUTPUT_DIRECTORY := some ⟨true, ["out"]⟩
    TEXMFOUTPUT := some ⟨true, ["fallback"]⟩
    can_read_anywhere := false
    can_read_dotfiles := false
    can_write_anywhere := false
    can_write_dotfiles := false
    prohibited_write_file_extensions := [".bat"] }

/-- The maximally restrictive sample policy. -/
def polStrict : Policy := safePolicy cfgSample

/-- A sample policy with both anywhere booleans set. -/
def polAnywhere : Policy :=
  { polStrict with can_read_anywhere := true, can_write_anywhere := true }

/-- A sample policy with the anywhere booleans cleared but dotfile access
permitted. -/
def polDotfilesOk : Policy :=
  { polStrict with can_read_dotfiles := true, can_write_dotfiles := true }

/-- The membership in `parts` and in `comps` of the parent-reference token
agree, since the root part `/` is not `..`. -/
theorem dotdot_mem_parts_iff (p : PurePath) :
    ".." ∈ p.parts ↔ ".." ∈ p.comps := by
  unfold PurePath.parts
  split
  · simp
  · exact Iff.rfl

/-- A member of a list that is not its last element is a member of
`dropLast`. -/
theorem mem_dropLast_of_getLast?_ne {α : Type} (a : α) :
    ∀ l : List α, a ∈ l → l.getLast? ≠ some a → a ∈ l.dropLast
  | [], h, _ => absurd h (List.not_mem_nil a)
  | [b], h, hne => by
    simp only [List.mem_singleton] at h
    subst h
    simp [List.getLast?] at hne
  | b :: c :: t, h, hne => by
    rcases List.mem_cons.mp h with hb | h2
    · subst hb
      simp [List.dropLast]
    · have hne2 : (c :: t).getLast? ≠ some a := by
        simpa [List.getLast?_cons_cons] using hne
      have hmem := mem_dropLast_of_getLast?_ne a (c :: t) h2 hne2
      simp only [List.dropLast_cons₂]
      exact List.mem_cons_of_mem b hmem

/-- C5 (amended): for a path containing `..`, with the relevant anywhere
boolean false, the lexical `tex_readable_dir`/`tex_writable_dir` deny
with the `..` reason, and `tex_readable_file`/`tex_writable_file` deny
with the `..` reason provided the final component is not itself `..` and
the file-name checks passed first (the dotfile check, and for writing
also the prohibited-extension scan). -/
theorem lexical_dotdot_denials (cfg : LatexConfig) (pol : Policy)
    (p : PurePath) (hp : ".." ∈ p.parts) :
    (pol.can_read_anywhere = false →
      stringTexReadableDir cfg pol p = denyDec reasonDotdot
      ∧ (p.comps.getLast? ≠ some ".." →
        (pol.can_read_dotfiles = true ∨ strStartsWith p.name "." = false) →
        stringTexReadableFile cfg pol p = denyDec reasonDotdot))
    ∧ (pol.can_write_anywhere = false →
      stringTexWritableDir cfg pol p = denyDec reasonDotdot
      ∧ (p.comps.getLast? ≠ some ".." →
        (pol.can_write_dotfiles = true ∨ strStartsWith p.name "." = false) →
        firstMatchingExt pol.prohibited_write_file_extensions
          (strToLower p.name) = none →
        stringTexWritableFile cfg pol p = denyDec reasonDotdot)) := by
  have hc : ".." ∈ p.comps := (dotdot_mem_parts_iff p).mp hp
  have hnonempty : p.comps.isEmpty = false := by
    cases hcs : p.comps with
    | nil => rw [hcs] at hc; exact absurd hc (List.not_mem_nil "..")
    | cons x t => rfl
  constructor
  · intro h1
    refine ⟨by simp [stringTexReadableDir, h1, hp], ?_⟩
    intro hlast hdot
    have hc2 : ".." ∈ p.comps.dropLast :=
      mem_dropLast_of_getLast?_ne ".." p.comps hc hlast
    have hp2 : ".." ∈ p.parent.parts := by
      rw [dotdot_mem_parts_iff]
      simp [PurePath.parent, hnonempty, hc2]
    have hdir : stringTexReadableDir cfg pol p.parent =
        denyDec reasonDotdot := by
      simp [stringTexReadableDir, h1, hp2]
    have hcond : (pol.can_read_dotfiles || !(strStartsWith p.name "."))
        = true := by
      rcases hdot with h | h <;> simp [h]
    simp [stringTexReadableFile, hcond, hdir]
  · intro h1
    refine ⟨by simp [stringTexWritableDir, h1, hp], ?_⟩
    intro hlast hdot hext
    have hc2 : ".." ∈ p.comps.dropLast :=
      mem_dropLast_of_getLast?_ne ".." p.comps hc hlast
    have hp2 : ".." ∈ p.parent.parts := by
      rw [dotdot_mem_parts_iff]
      simp [PurePath.parent, hnonempty, hc2]
    have hdir : stringTexWritableDir cfg pol p.parent =
        denyDec reasonDotdot := by
      simp [stringTexWritableDir, h1, hp2]
    have hcond : (pol.can_write_dotfiles || !(strStartsWith p.name "."))
        = true := by
      rcases hdot with h | h <;> simp [h]
    simp [stringTexWritableFile, hext, hcond, hdir]

/-- Witness for C5 (amended): the relative path `../b.tex` is denied with
the `..` reason by both lexical file predicates under the strict
policy. -/
theorem lexical_dotdot_denials_witness :
    stringTexReadableFile cfgSample polStrict ⟨false, ["..", "b.tex"]⟩ =
      denyDec reasonDotdot
    ∧ stringTexWritableFile cfgSample polStrict ⟨false, ["..", "b.tex"]⟩ =
      denyDec reasonDotdot :=
  ⟨((lexical_dotdot_denials cfgSample polStrict ⟨false, ["..", "b.tex"]⟩
      (by decide)).1 (by decide)).2 (by decide) (Or.inr (by decide)),
   ((lexical_dotdot_denials cfgSample polStrict ⟨false, ["..", "b.tex"]⟩
      (by decide)).2 (by decide)).2 (by decide) (Or.inr (by decide))
      (by decide)⟩

/-- Counterexample to C5 as stated: under a policy with reading anywhere
disabled (and dotfile reading enabled), the lexical `tex_readable_file`
does not deny the path `a/..` — whose parts contain the
parent-reference token — with the `..` reason: it allows it, because the
delegation to the parent directory drops the trailing `..`. -/
theorem lexical_dotdot_file_counterexample :
    ".." ∈ (⟨false, ["a", ".."]⟩ : PurePath).parts
    ∧ polDotfilesOk.can_read_anywhere = false
    ∧ stringTexReadableFile cfgSample polDotfilesOk ⟨false, ["a", ".."]⟩ =
      allowDec
    ∧ allowDec ≠ denyDec reasonDotdot := by
  refine ⟨by decide, by decide, by decide, by decide⟩

/-- Witness for C1: concrete decisions exercising every branch of the
lexical directory decision sequence: anywhere allows, `..` denies with
the `..` reason, an absolute path under `/out` is allowed, an absolute
path under `/etc` is denied with the location reason, and a relative
path is allowed; same for the write predicate. -/
theorem lexical_dir_decision_sequence_witness :
    stringTexReadableDir cfgSample polAnywhere ⟨true, ["etc", "pw"]⟩ =
      allowDec
    ∧ stringTexReadableDir cfgSample polStrict ⟨false, ["a", "..", "b"]⟩ =
      denyDec reasonDotdot
    ∧ stringTexReadableDir cfgSample polStrict ⟨true, ["out", "f"]⟩ =
      allowDec
    ∧ stringTexReadableDir cfgSample polStrict ⟨true, ["etc", "pw"]⟩ =
      denyDec reasonLocation
    ∧ stringTexReadableDir cfgSample polStrict ⟨false, ["a", "b"]⟩ =
      allowDec
    ∧ stringTexWritableDir cfgSample polStrict ⟨true, ["etc", "pw"]⟩ =
      denyDec reasonLocation :=
  ⟨(lexical_dir_decision_sequence cfgSample polAnywhere
      ⟨true, ["etc", "pw"]⟩).1 (by decide),
   (lexical_dir_decision_sequence cfgSample polStrict
      ⟨false, ["a", "..", "b"]⟩).2.1 (by decide) (by decide),
   ((lexical_dir_decision_sequence cfgSample polStrict
      ⟨true, ["out", "f"]⟩).2.2.1 (by decide) (by decide) (by decide)).1
      (by decide),
   ((lexical_dir_decision_sequence cfgSample polStrict
      ⟨true, ["etc", "pw"]⟩).2.2.1 (by decide) (by decide) (by decide)).2
      (by decide),
   (lexical_dir_decision_sequence cfgSample polStrict
      ⟨false, ["a", "b"]⟩).2.2.2.1 (by decide) (by decide) (by decide),
   ((lexical_dir_decision_sequence cfgSample polStrict
      ⟨true, ["etc", "pw"]⟩).2.2.2.2.2.2.2.1 (by decide) (by decide)
      (by decide)).2 (by decide)⟩

/-- C2: the resolved validator file predicates check both the original and
the resolved name: `tex_readable_file` denies with the dotfile reason
when dotfile reading is disabled and either name starts with `.`, else
delegates to `tex_readable_dir` on the resolved parent;
`tex_writable_file` denies with the extension reason when either
lower-cased name ends with a prohibited extension, then applies the same
dual dotfile check with the write policy, and otherwise delegates to
`tex_writable_dir` on the resolved parent. -/
theorem resolved_file_dual_checks (cfg : LatexConfig) (pol : Policy)
    (resolve : PurePath → PurePath) (p : PurePath) :
    (pol.can_read_dotfiles = false →
      (strStartsWith p.name "." = true
        ∨ strStartsWith (resolve p).name "." = true) →
      resolvedTexReadableFile cfg pol resolve p = denyDec reasonDotfiles)
    ∧ ((pol.can_read_dotfiles = true
        ∨ (strStartsWith p.name "." = false
          ∧ strStartsWith (resolve p).name "." = false)) →
      resolvedTexReadableFile cfg pol resolve p =
        resolvedTexReadableDir cfg pol resolve (resolve p).parent)
    ∧ (∀ ext, firstMatchingExtDual pol.prohibited_write_file_extensions
        (strToLower p.name) (strToLower (resolve p).name) = some ext →
      ext ∈ pol.prohibited_write_file_extensions
      ∧ (strEndsWith (strToLower p.name) ext = true
        ∨ strEndsWith (strToLower (resolve p).name) ext = true)
      ∧ resolvedTexWritableFile cfg pol resolve p =
        denyDec (reasonExtension ext))
    ∧ (firstMatchingExtDual pol.prohibited_write_file_extensions
        (strToLower p.name) (strToLower (resolve p).name) = none →
      (pol.can_write_dotfiles = false →
        (strStartsWith p.name "." = true
          ∨ strStartsWith (resolve p).name "." = true) →
        resolvedTexWritableFile cfg pol resolve p = denyDec reasonDotfiles)
      ∧ ((pol.can_write_dotfiles = true
          ∨ (strStartsWith p.name "." = false
            ∧ strStartsWith (resolve p).name "." = false)) →
        resolvedTexWritableFile cfg pol resolve p =
          resolvedTexWritableDir cfg pol resolve (resolve p).parent)) := by
  refine ⟨?_, ?_, ?_, ?_⟩
  · intro h1 h2
    rcases h2 with h | h <;> simp [resolvedTexReadableFile, h1, h]
  · intro h2
    rcases h2 with h | ⟨ha, hb⟩
    · simp [resolvedTexReadableFile, h]
    · simp [resolvedTexReadableFile, ha, hb]
  · intro ext hext
    have hmem := List.mem_of_find?_eq_some hext
    have hpred := List.find?_some hext
    refine ⟨hmem, ?_, ?_⟩
    · rcases Bool.or_eq_true _ _ |>.mp hpred with h | h
      · exact Or.inl h
      · exact Or.inr h
    · simp only [resolvedTexWritableFile, hext]
  · intro hext
    refine ⟨?_, ?_⟩
    · intro h1 h2
      rcases h2 with h | h <;> simp [resolvedTexWritableFile, hext, h1, h]
    · intro h2
      rcases h2 with h | ⟨ha, hb⟩
      · simp [resolvedTexWritableFile, hext, h]
      · simp [resolvedTexWritableFile, hext, ha, hb]

/-- A sample filesystem resolution: `sub/link.tex` is a symlink whose
target is the dotfile `/tex/.hidden.bat`; everything else resolves to
itself. -/
def resolveSample : PurePath → PurePath := fun p =>
  if p = ⟨false, ["sub", "link.tex"]⟩ then ⟨true, ["tex", ".hidden.bat"]⟩
  else p

/-- Witness for C2: under the strict policy, reading `sub/link.tex` —
whose resolved name `.hidden.bat` is a dotfile — is denied with the
dotfile reason even though the original name is not a dotfile, and
writing it is denied with the `.bat` extension reason carried by the
resolved name; a plain relative `notes.tex` delegates to the resolved
parent directory check. -/
theorem resolved_file_dual_checks_witness :
    resolvedTexReadableFile cfgSample polStrict resolveSample
      ⟨false, ["sub", "link.tex"]⟩ = denyDec reasonDotfiles
    ∧ resolvedTexWritableFile cfgSample polStrict resolveSample
      ⟨false, ["sub", "link.tex"]⟩ = denyDec (reasonExtension ".bat")
    ∧ resolvedTexReadableFile cfgSample polStrict resolveSample
      ⟨false, ["notes.tex"]⟩ =
      resolvedTexReadableDir cfgSample polStrict resolveSample
        (resolveSample ⟨false, ["notes.tex"]⟩).parent :=
  ⟨(resolved_file_dual_checks cfgSample polStrict resolveSample
      ⟨false, ["sub", "link.tex"]⟩).1 (by decide) (Or.inr (by decide)),
   ((resolved_file_dual_checks cfgSample polStrict resolveSample
      ⟨false, ["sub", "link.tex"]⟩).2.2.1 ".bat" (by decide)).2.2,
   (resolved_file_dual_checks cfgSample polStrict resolveSample
      ⟨false, ["notes.tex"]⟩).2.1 (Or.inr ⟨by decide, by decide⟩)⟩

/-- Membership of a reason string in the template set the code's reason
literals generate: the `..` template (double quotes), the location
template, the dotfile template, and the extension template instantiated
at each configured prohibited extension. -/
def reasonInTemplates (pol : Policy) (r : String) : Bool :=
  r == reasonDotdot || r == reasonLocation || r == reasonDotfiles
  || pol.prohibited_write_file_extensions.any fun ext =>
      r == reasonExtension ext

/-- Modelled from the spec, section 6: the parent-reference template as
written there, with apostrophes (single quotes) around the dots. -/
def specTemplateDotdot : String :=
  "security settings do not permit paths containing \x27..\x27"

/-- Modelled from the spec, section 6: membership in the template set as
the spec writes it, whose parent-reference template uses apostrophes. -/
def reasonInSpecTemplates (pol : Policy) (r : String) : Bool :=
  r == specTemplateDotdot || r == reasonLocation || r == reasonDotfiles
  || pol.prohibited_write_file_extensions.any fun ext =>
      r == reasonExtension ext

/-- A decision is well-formed when it is `(True, None)` or `(False, r)`
with `r` one of the code's reason templates — so the reason is present
iff access is denied. -/
def decisionWellFormed (pol : Policy) (d : Decision) : Prop :=
  d = (true, none)
  ∨ ∃ r, d = (false, some r) ∧ reasonInTemplates pol r = true

/-- The extension template at a configured extension is in the template
set. -/
theorem reasonInTemplates_extension (pol : Policy) (ext : String)
    (h : ext ∈ pol.prohibited_write_file_extensions) :
    reasonInTemplates pol (reasonExtension ext) = true := by
  unfold reasonInTemplates
  have : pol.prohibited_write_file_extensions.any
      (fun e => reasonExtension ext == reasonExtension e) = true := by
    rw [List.any_eq_true]
    exact ⟨ext, h, by simp⟩
  simp [this]

/-- `StringRestrictedPath.tex_readable_dir` decisions are well-formed. -/
theorem stringTexReadableDir_wellFormed (cfg : LatexConfig) (pol : Policy)
    (p : PurePath) :
    decisionWellFormed pol (stringTexReadableDir cfg pol p) := by
  unfold stringTexReadableDir decisionWellFormed
  split
  · exact Or.inl rfl
  · split
    · exact Or.inr ⟨reasonDotdot, rfl, by simp [reasonInTemplates]⟩
    · split
      · exact Or.inr ⟨reasonLocation, rfl, by simp [reasonInTemplates]⟩
      · exact Or.inl rfl

/-- `StringRestrictedPath.tex_writable_dir` decisions are well-formed. -/
theorem stringTexWritableDir_wellFormed (cfg : LatexConfig) (pol : Policy)
    (p : PurePath) :
    decisionWellFormed pol (stringTexWritableDir cfg pol p) := by
  unfold stringTexWritableDir decisionWellFormed
  split
  · exact Or.inl rfl
  · split
    · exact Or.inr ⟨reasonDotdot, rfl, by simp [reasonInTemplates]⟩
    · split
      · exact Or.inr ⟨reasonLocation, rfl, by simp [reasonInTemplates]⟩
      · exact Or.inl rfl

/-- `StringRestrictedPath.tex_readable_file` decisions are well-formed. -/
theorem stringTexReadableFile_wellFormed (cfg : LatexConfig) (pol : Policy)
    (p : PurePath) :
    decisionWellFormed pol (stringTexReadableFile cfg pol p) := by
  unfold stringTexReadableFile
  split
  · exact stringTexReadableDir_wellFormed cfg pol p.parent
  · exact Or.inr ⟨reasonDotfiles, rfl, by simp [reasonInTemplates]⟩

/-- `StringRestrictedPath.tex_writable_file` decisions are well-formed. -/
theorem stringTexWritableFile_wellFormed (cfg : LatexConfig) (pol : Policy)
    (p : PurePath) :
    decisionWellFormed pol (stringTexWritableFile cfg pol p) := by
  cases hm : firstMatchingExt pol.prohibited_write_file_extensions
      (strToLower p.name) with
  | some ext =>
    have he : stringTexWritableFile cfg pol p =
        denyDec (reasonExtension ext) := by
      simp [stringTexWritableFile, hm]
    rw [he]
    exact Or.inr ⟨reasonExtension ext, rfl,
      reasonInTemplates_extension pol ext (List.mem_of_find?_eq_some hm)⟩
  | none =>
    cases h2 : pol.can_write_dotfiles with
    | true =>
      have he : stringTexWritableFile cfg pol p =
          stringTexWritableDir cfg pol p.parent := by
        simp [stringTexWritableFile, hm, h2]
      rw [he]
      exact stringTexWritableDir_wellFormed cfg pol p.parent
    | false =>
      cases h3 : strStartsWith p.name "." with
      | false =>
        have he : stringTexWritableFile cfg pol p =
            stringTexWritableDir cfg pol p.parent := by
          simp [stringTexWritableFile, hm, h2, h3]
        rw [he]
        exact stringTexWritableDir_wellFormed cfg pol p.parent
      | true =>
        have he : stringTexWritableFile cfg pol p =
            denyDec reasonDotfiles := by
          simp [stringTexWritableFile, hm, h2, h3]
        rw [he]
        exact Or.inr ⟨reasonDotfiles, rfl, by simp [reasonInTemplates]⟩

/-- `ResolvedRestrictedPath.tex_readable_dir` decisions are well-formed. -/
theorem resolvedTexReadableDir_wellFormed (cfg : LatexConfig)
    (pol : Policy) (resolve : PurePath → PurePath) (p : PurePath) :
    decisionWellFormed pol (resolvedTexReadableDir cfg pol resolve p) := by
  unfold resolvedTexReadableDir decisionWellFormed
  split
  · exact Or.inl rfl
  · split
    · exact Or.inl rfl
    · exact Or.inr ⟨reasonLocation, rfl, by simp [reasonInTemplates]⟩

/-- `ResolvedRestrictedPath.tex_writable_dir` decisions are well-formed. -/
theorem resolvedTexWritableDir_wellFormed (cfg : LatexConfig)
    (pol : Policy) (resolve : PurePath → PurePath) (p : PurePath) :
    decisionWellFormed pol (resolvedTexWritableDir cfg pol resolve p) := by
  unfold resolvedTexWritableDir decisionWellFormed
  split
  · exact Or.inl rfl
  · split
    · exact Or.inl rfl
    · exact Or.inr ⟨reasonLocation, rfl, by simp [reasonInTemplates]⟩

/-- `ResolvedRestrictedPath.tex_readable_file` decisions are
well-formed. -/
theorem resolvedTexReadableFile_wellFormed (cfg : LatexConfig)
    (pol : Policy) (resolve : PurePath → PurePath) (p : PurePath) :
    decisionWellFormed pol (resolvedTexReadableFile cfg pol resolve p) := by
  cases h2 : (pol.can_read_dotfiles
      || !(strStartsWith p.name "." || strStartsWith (resolve p).name "."))
      with
  | true =>
    have he : resolvedTexReadableFile cfg pol resolve p =
        resolvedTexReadableDir cfg pol resolve (resolve p).parent := by
      rw [resolvedTexReadableFile]
      simp only [h2, if_true]
    rw [he]
    exact resolvedTexReadableDir_wellFormed cfg pol resolve _
  | false =>
    have he : resolvedTexReadableFile cfg pol resolve p =
        denyDec reasonDotfiles := by
      rw [resolvedTexReadableFile]
      simp only [h2, Bool.false_eq_true, if_false]
    rw [he]
    exact Or.inr ⟨reasonDotfiles, rfl, by simp [reasonInTemplates]⟩

/-- `ResolvedRestrictedPath.tex_writable_file` decisions are
well-formed. -/
theorem resolvedTexWritableFile_wellFormed (cfg : LatexConfig)
    (pol : Policy) (resolve : PurePath → PurePath) (p : PurePath) :
    decisionWellFormed pol (resolvedTexWritableFile cfg pol resolve p) := by
  cases hm : firstMatchingExtDual pol.prohibited_write_file_extensions
      (strToLower p.name) (strToLower (resolve p).name) with
  | some ext =>
    have he : resolvedTexWritableFile cfg pol resolve p =
        denyDec (reasonExtension ext) := by
      rw [resolvedTexWritableFile]
      simp only [hm]
    rw [he]
    exact Or.inr ⟨reasonExtension ext, rfl,
      reasonInTemplates_extension pol ext (List.mem_of_find?_eq_some hm)⟩
  | none =>
    cases h2 : (pol.can_write_dotfiles
        || !(strStartsWith p.name "."
          || strStartsWith (resolve p).name ".")) with
    | true =>
      have he : resolvedTexWritableFile cfg pol resolve p =
          resolvedTexWritableDir cfg pol resolve (resolve p).parent := by
        rw [resolvedTexWritableFile]
        simp only [hm, h2, if_true]
      rw [he]
      exact resolvedTexWritableDir_wellFormed cfg pol resolve _
    | false =>
      have he : resolvedTexWritableFile cfg pol resolve p =
          denyDec reasonDotfiles := by
        rw [resolvedTexWritableFile]
        simp only [hm, h2, Bool.false_eq_true, if_false]
      rw [he]
      exact Or.inr ⟨reasonDotfiles, rfl, by simp [reasonInTemplates]⟩

/-- C6 (amended): every decision of the four predicates of both validators
is `(True, None)` or `(False, r)` — so a reason is present iff access is
denied — with `r` drawn character for character from the code's template
set, whose parent-reference template surrounds `..` with double
quotation marks. -/
theorem access_decisions_use_code_templates (cfg : LatexConfig)
    (pol : Policy) (resolve : PurePath → PurePath) (p : PurePath) :
    decisionWellFormed pol (stringTexReadableDir cfg pol p)
    ∧ decisionWellFormed pol (stringTexReadableFile cfg pol p)
    ∧ decisionWellFormed pol (stringTexWritableDir cfg pol p)
    ∧ decisionWellFormed pol (stringTexWritableFile cfg pol p)
    ∧ decisionWellFormed pol (resolvedTexReadableDir cfg pol resolve p)
    ∧ decisionWellFormed pol (resolvedTexReadableFile cfg pol resolve p)
    ∧ decisionWellFormed pol (resolvedTexWritableDir cfg pol resolve p)
    ∧ decisionWellFormed pol (resolvedTexWritableFile cfg pol resolve p) :=
  ⟨stringTexReadableDir_wellFormed cfg pol p,
   stringTexReadableFile_wellFormed cfg pol p,
   stringTexWritableDir_wellFormed cfg pol p,
   stringTexWritableFile_wellFormed cfg pol p,
   resolvedTexReadableDir_wellFormed cfg pol resolve p,
   resolvedTexReadableFile_wellFormed cfg pol resolve p,
   resolvedTexWritableDir_wellFormed cfg pol resolve p,
   resolvedTexWritableFile_wellFormed cfg pol resolve p⟩

/-- Counterexample to C6 as stated: the reason the code produces for a
path containing `..` writes the dots inside double quotation marks,
which differs character for character from the spec's section-6
template set, whose parent-reference template uses apostrophes. -/
theorem code_reason_not_in_spec_templates :
    stringTexReadableDir cfgSample polStrict ⟨false, ["..", "b"]⟩ =
      (false, some reasonDotdot)
    ∧ reasonInTemplates polStrict reasonDotdot = true
    ∧ reasonInSpecTemplates polStrict reasonDotdot = false
    ∧ reasonDotdot ≠ specTemplateDotdot := by
  refine ⟨by decide, by decide, by decide, by decide⟩

/-- Looking up the key just inserted at the front of a cache finds its
decision. -/
theorem cacheLookup_cons_self (c : DecisionCache) (k : CacheKey)
    (d : Decision) : cacheLookup ((k, d) :: c) k = some d := by
  unfold cacheLookup
  rw [List.find?_cons_of_pos _ (by simp)]
  rfl

/-- Inserting a key that was absent preserves every present entry. -/
theorem cacheLookup_cons_preserve (c : DecisionCache) (k0 : CacheKey)
    (d0 : Decision) (k : CacheKey) (d : Decision)
    (habsent : cacheLookup c k0 = none) (h : cacheLookup c k = some d) :
    cacheLookup ((k0, d0) :: c) k = some d := by
  have hne : (k0 == k) = false := by
    rcases hb : k0 == k with _ | _
    · rfl
    · rw [beq_iff_eq] at hb
      rw [hb] at habsent
      rw [habsent] at h
      exact absurd h (by simp)
  unfold cacheLookup at h ⊢
  rw [List.find?_cons_of_neg _ (by simp [hne])]
  exact h

/-- C7: consecutive calls of the same cached access predicate for the same
`(variant, path)` key return the identical decision and leave the whole
class-level state — the four caches and the resolution counter —
unchanged, even when the filesystem resolution function has changed in
between (so only the first call resolves, and the cached decision is
reused regardless of later filesystem changes); moreover a call never
evicts any existing cache entry. -/
theorem decision_cache_semantics (cfg : LatexConfig)
    (resolve resolve2 : PurePath → PurePath) (V : Variant) (p : PurePath)
    (st : CacheState) :
    texReadableDirCached cfg resolve2 V p
      (texReadableDirCached cfg resolve V p st).2 =
      texReadableDirCached cfg resolve V p st
    ∧ texReadableFileCached cfg resolve2 V p
      (texReadableFileCached cfg resolve V p st).2 =
      texReadableFileCached cfg resolve V p st
    ∧ texWritableDirCached cfg resolve2 V p
      (texWritableDirCached cfg resolve V p st).2 =
      texWritableDirCached cfg resolve V p st
    ∧ texWritableFileCached cfg resolve2 V p
      (texWritableFileCached cfg resolve V p st).2 =
      texWritableFileCached cfg resolve V p st
    ∧ (∀ k d, cacheLookup st.readableDirCache k = some d →
      cacheLookup
        ((texReadableDirCached cfg resolve V p st).2).readableDirCache k =
        some d)
    ∧ (∀ k d, cacheLookup st.readableFileCache k = some d →
      cacheLookup
        ((texReadableFileCached cfg resolve V p st).2).readableFileCache k =
        some d)
    ∧ (∀ k d, cacheLookup st.writableDirCache k = some d →
      cacheLookup
        ((texWritableDirCached cfg resolve V p st).2).writableDirCache k =
        some d)
    ∧ (∀ k d, cacheLookup st.writableFileCache k = some d →
      cacheLookup
        ((texWritableFileCached cfg resolve V p st).2).writableFileCache k =
        some d)
    ∧ ((texReadableDirCached cfg resolve2 V p
        (texReadableDirCached cfg resolve V p st).2).2.resolveCount =
      ((texReadableDirCached cfg resolve V p st).2).resolveCount) := by
  have hrd : texReadableDirCached cfg resolve2 V p
      (texReadableDirCached cfg resolve V p st).2 =
      texReadableDirCached cfg resolve V p st := by
    cases h : cacheLookup st.readableDirCache (V, p) with
    | some d => simp [texReadableDirCached, h]
    | none => simp [texReadableDirCached, h, cacheLookup_cons_self]
  refine ⟨hrd, ?_, ?_, ?_, ?_, ?_, ?_, ?_, ?_⟩
  · cases h : cacheLookup st.readableFileCache (V, p) with
    | some d => simp [texReadableFileCached, h]
    | none => simp [texReadableFileCached, h, cacheLookup_cons_self]
  · cases h : cacheLookup st.writableDirCache (V, p) with
    | some d => simp [texWritableDirCached, h]
    | none => simp [texWritableDirCached, h, cacheLookup_cons_self]
  · cases h : cacheLookup st.writableFileCache (V, p) with
    | some d => simp [texWritableFileCached, h]
    | none => simp [texWritableFileCached, h, cacheLookup_cons_self]
  · intro k d hkd
    cases h : cacheLookup st.readableDirCache (V, p) with
    | some d2 => simpa [texReadableDirCached, h] using hkd
    | none =>
      simp only [texReadableDirCached, h]
      exact cacheLookup_cons_preserve _ _ _ _ _ h hkd
  · intro k d hkd
    cases h : cacheLookup st.readableFileCache (V, p) with
    | some d2 => simpa [texReadableFileCached, h] using hkd
    | none =>
      simp only [texReadableFileCached, h]
      exact cacheLookup_cons_preserve _ _ _ _ _ h hkd
  · intro k d hkd
    cases h : cacheLookup st.writableDirCache (V, p) with
    | some d2 => simpa [texWritableDirCached, h] using hkd
    | none =>
      simp only [texWritableDirCached, h]
      exact cacheLookup_cons_preserve _ _ _ _ _ h hkd
  · intro k d hkd
    cases h : cacheLookup st.writableFileCache (V, p) with
    | some d2 => simpa [texWritableFileCached, h] using hkd
    | none =>
      simp only [texWritableFileCached, h]
      exact cacheLookup_cons_preserve _ _ _ _ _ h hkd
  · rw [hrd]

/-- The resolved default variant. -/
def variantResolved : Variant := ⟨true, polStrict⟩

/-- The lexical default variant. -/
def variantLexical : Variant := ⟨false, polStrict⟩

/-- The empty class-level cache state. -/
def stEmpty : CacheState := ⟨[], [], [], [], 0⟩

/-- A cache state holding one directory-read decision, for the lexical
variant at the relative path `a.tex`. -/
def stPrefilled : CacheState :=
  ⟨[((variantLexical, pathRelA), allowDec)], [], [], [], 0⟩

/-- A second sample filesystem resolution, disagreeing with
`resolveSample` everywhere. -/
def resolveAlt : PurePath → PurePath := fun q => ⟨true, "root" :: q.comps⟩

/-- Witness for C7: on concrete inputs, the second call of the resolved
directory predicate — under a changed filesystem — returns the first
call's decision and state unchanged, and a prefilled cache entry
survives a call at a different key. -/
theorem decision_cache_semantics_witness :
    texReadableDirCached cfgSample resolveAlt variantResolved pathRelA
      (texReadableDirCached cfgSample resolveSample variantResolved
        pathRelA stEmpty).2 =
      texReadableDirCached cfgSample resolveSample variantResolved
        pathRelA stEmpty
    ∧ cacheLookup
      ((texReadableDirCached cfgSample resolveSample variantResolved
        pathAbsOut stPrefilled).2).readableDirCache
      (variantLexical, pathRelA) = some allowDec :=
  ⟨(decision_cache_semantics cfgSample resolveSample resolveAlt
      variantResolved pathRelA stEmpty).1,
   (decision_cache_semantics cfgSample resolveSample resolveAlt
      variantResolved pathAbsOut stPrefilled).2.2.2.2.1
      (variantLexical, pathRelA) allowDec (by decide)⟩

end LatexRestricted

